import Mathlib

/-!
Verification development for the sensorpush-logger backend.

The definitions below are a shallow embedding of the Python sources:
the storage engine of src/backend/sql_model.py (an SQLite database is
modelled as lists of rows in insertion order, with the schema's UNIQUE
and FOREIGN KEY constraints made explicit), the advertisement pipeline
of src/backend/sp_ble.py (stateful scanner/read/register steps become a
state-passing function recording a trace of externally visible actions),
and the publish path plus shared subscriber queue of
src/backend/graphql_resolvers.py.

Timestamps are modelled as natural numbers, float readings as rationals
(no floating-point arithmetic is performed on them by the code), byte
payloads as lists of naturals below 256, and exceptions as Except values;
a transactional rollback corresponds to returning an error without a new
database value.
-/

namespace SensorPush

/-- Row of the devices table: id INTEGER PRIMARY KEY AUTOINCREMENT,
sp_id INTEGER UNIQUE, ble_id VARCHAR UNIQUE. -/
structure DeviceRow where
  rowid : Nat
  spId : Nat
  bleId : String
deriving DecidableEq, Repr

/-- Row of the samples table: id AUTOINCREMENT, device_sp_id,
created_on TIMESTAMP DEFAULT CURRENT_TIMESTAMP, temperature_c, humidity. -/
structure SampleRow where
  rowid : Nat
  spId : Nat
  createdOn : Nat
  temperature : Rat
  humidity : Rat
deriving DecidableEq, Repr

/-- Row of the device_names table: device_sp_id UNIQUE, name. -/
structure NameRow where
  spId : Nat
  name : String
deriving DecidableEq, Repr

/-- Result row of get_sensor_by_sp_id: sp_id, ble_id and the COALESCEd
friendly name. -/
structure SensorInfo where
  spId : Nat
  bleId : String
  name : String
deriving DecidableEq, Repr

/-- Error taxonomy raised by the storage engine as ValueError: a duplicate
identity on insert (ConflictError) or a reference to a device that does
not exist (ReferenceError). -/
inductive DbError where
  | conflictErr
  | referenceErr
deriving DecidableEq, Repr

/-- State of the SQLite database owned by SqlModel, tables kept in
insertion (rowid) order. -/
structure Db where
  nextDeviceId : Nat
  devices : List DeviceRow
  nextSampleId : Nat
  samples : List SampleRow
  deviceNames : List NameRow
deriving DecidableEq, Repr

/-- Freshly initialized database (empty tables). -/
def emptyDb : Db := ⟨1, [], 1, [], []⟩

/-- SqlModel.add_device: INSERT INTO devices (sp_id, ble_id); the UNIQUE
constraints on sp_id and ble_id make the insert fail (IntegrityError,
re-raised as ValueError, after rollback) when either key already exists;
on success the autoincrement rowid is returned. -/
def addDevice (db : Db) (spId : Nat) (bleId : String) : Except DbError (Db × Nat) :=
  if db.devices.any (fun d => d.spId == spId || d.bleId == bleId) then
    .error .conflictErr
  else
    .ok ({ db with
            devices := db.devices ++ [⟨db.nextDeviceId, spId, bleId⟩],
            nextDeviceId := db.nextDeviceId + 1 },
         db.nextDeviceId)

/-- SqlModel.add_sample: INSERT INTO samples (device_sp_id, temperature_c,
humidity) with created_on defaulting to the current timestamp (here the
explicit argument now). With PRAGMA foreign_keys = ON the foreign key to
devices(sp_id) makes the insert fail (rolled back, reported as ValueError
saying the device does not exist) when the device is not registered. -/
def addSample (db : Db) (spId : Nat) (temperature humidity : Rat) (now : Nat) :
    Except DbError (Db × Nat) :=
  if db.devices.any (fun d => d.spId == spId) then
    .ok ({ db with
            samples := db.samples ++ [⟨db.nextSampleId, spId, now, temperature, humidity⟩],
            nextSampleId := db.nextSampleId + 1 },
         db.nextSampleId)
  else
    .error .referenceErr

/-- SqlModel.device_exists: SELECT 1 FROM devices WHERE ble_id = ?. -/
def deviceExists (db : Db) (bleId : String) : Bool :=
  db.devices.any (fun d => d.bleId == bleId)

/-- SqlModel.device_sp_id_exists: SELECT 1 FROM devices WHERE sp_id = ?. -/
def deviceSpIdExists (db : Db) (spId : Nat) : Bool :=
  db.devices.any (fun d => d.spId == spId)

/-- SqlModel.get_device_sp_id: SELECT sp_id FROM devices WHERE ble_id = ?,
None when the device is not found. -/
def getDeviceSpId (db : Db) (bleId : String) : Option Nat :=
  (db.devices.find? (fun d => d.bleId == bleId)).map (fun d => d.spId)

/-- COALESCE(dn.name, ''): the friendly name of a device, the empty string
when no name row exists. -/
def friendlyName (db : Db) (spId : Nat) : String :=
  match db.deviceNames.find? (fun r => r.spId == spId) with
  | some r => r.name
  | none => ""

/-- SqlModel.get_sensor_by_sp_id: LEFT JOIN of devices with device_names,
None when the device does not exist. -/
def getSensorBySpId (db : Db) (spId : Nat) : Option SensorInfo :=
  match db.devices.find? (fun d => d.spId == spId) with
  | some d => some ⟨d.spId, d.bleId, friendlyName db spId⟩
  | none => none

/-- SqlModel.update_device_name: first checks device_sp_id_exists and
raises ValueError otherwise; then INSERT ... ON CONFLICT(device_sp_id)
DO UPDATE SET name = excluded.name, an upsert against the UNIQUE
device_sp_id column. -/
def updateDeviceName (db : Db) (spId : Nat) (name : String) : Except DbError Db :=
  if db.devices.any (fun d => d.spId == spId) then
    if db.deviceNames.any (fun r => r.spId == spId) then
      .ok { db with
              deviceNames := db.deviceNames.map
                (fun r => if r.spId == spId then ⟨r.spId, name⟩ else r) }
    else
      .ok { db with deviceNames := db.deviceNames ++ [⟨spId, name⟩] }
  else
    .error .referenceErr

/-- One step of the window-query scan behind get_latest_sample_for_all_sensors:
keep the row with the strictly larger created_on, keeping the incumbent on a
tie. Folding this over the table in rowid order realizes ROW_NUMBER() OVER
(PARTITION BY device_sp_id ORDER BY created_on DESC) with rn = 1: the SQL
imposes no ordering among rows with equal created_on, and the scan-order
determinization gives rn = 1 to the earliest-inserted maximal row. -/
def latStep (spId : Nat) (acc : Option SampleRow) (r : SampleRow) : Option SampleRow :=
  if r.spId == spId then
    match acc with
    | none => some r
    | some best => if best.createdOn < r.createdOn then some r else some best
  else acc

/-- SqlModel.get_latest_sample_for_all_sensors, viewed as the lookup
function of the returned dictionary: the latest sample of a device, or
None when the device has no sample (such devices are absent from the
dictionary, which is keyed by rows of the samples table only). -/
def getLatestSampleForAllSensors (db : Db) (spId : Nat) : Option SampleRow :=
  db.samples.foldl (latStep spId) none

/-- Record put on the subscriber-facing sample queue by publish_sample:
the Sample GraphQL object carrying device number, friendly name,
temperature, humidity and timestamp. -/
structure BRecord where
  spId : Nat
  name : String
  temperature : Rat
  humidity : Rat
  timestamp : Nat
deriving DecidableEq, Repr

/-- Friendly name attached by publish_sample: get_sensor_by_sp_id gives
the COALESCEd name, and a missing sensor row degrades to the empty
string. -/
def publishedName (db : Db) (spId : Nat) : String :=
  match getSensorBySpId db spId with
  | some info => info.name
  | none => ""

/-- graphql_resolvers.publish_sample: reads the sp_id, temperature and
humidity fields of the incoming record (None when the key is missing);
if any of the three is missing it logs a warning and returns without
enqueuing; otherwise it fetches the friendly name, resolves the
timestamp (defaulting to the current time when absent) and appends the
Sample object to the global sample queue. -/
def publishSample (db : Db) (spId : Option Nat) (temperature humidity : Option Rat)
    (timestamp : Option Nat) (nowDefault : Nat) (queue : List BRecord) : List BRecord :=
  match spId, temperature, humidity with
  | some d, some t, some h =>
      queue ++ [⟨d, publishedName db d, t, h, timestamp.getD nowDefault⟩]
  | _, _, _ => queue

/-- Externally visible actions performed while processing advertisement
events, recorded in execution order: stopping and restarting the scanner,
attempting a GATT identity read, registering a device, persisting a
sample, and handing a record to the broadcast path. -/
inductive Action where
  | scanStop
  | scanStart
  | readAttempt
  | register (spId : Nat)
  | persist (spId : Nat)
  | publish (rec : BRecord)
deriving DecidableEq, Repr

/-- State threaded through the advertisement pipeline: the database, the
subscriber-facing sample queue filled by publish_sample, and the trace of
actions performed so far. -/
structure PState where
  db : Db
  queue : List BRecord
  trace : List Action
deriving DecidableEq, Repr

/-- One advertisement event together with the environment choices the code
observes while handling it: whether the payload is a supported SensorPush
advertisement, the decoded readings (None when absent from the payload),
the outcome of the GATT identity read if one is attempted (None when the
connection or read raises, otherwise the raw payload bytes), and the
ingestion-time clock used for timestamps. -/
structure Advert where
  address : String
  supported : Bool
  temperature : Option Rat
  humidity : Option Rat
  readResult : Option (List Nat)
  now : Nat
deriving DecidableEq, Repr

/-- int.from_bytes(raw_val[:4], byteorder="little"): the unsigned
little-endian integer encoded by the first four bytes. -/
def fromLE4 (raw : List Nat) : Nat :=
  (raw.take 4).foldr (fun b acc => b + 256 * acc) 0

/-- sp_ble.read_device_id: connect and read the identity characteristic
(one read attempt); when the read yields at least 4 bytes, decode the
little-endian device number and call db.add_device, whose ValueError is
caught and logged; a shorter payload, or any exception during the
connection or read, is caught and logged, leaving the database untouched.
The function never propagates an exception. -/
def readDeviceId (s : PState) (a : Advert) : PState :=
  let s1 : PState := { s with trace := s.trace ++ [Action.readAttempt] }
  match a.readResult with
  | none => s1
  | some raw =>
      if 4 ≤ raw.length then
        match addDevice s1.db (fromLE4 raw) a.address with
        | .ok (db2, _) =>
            { s1 with db := db2, trace := s1.trace ++ [Action.register (fromLE4 raw)] }
        | .error _ => s1
      else s1

/-- sp_ble.process_advertisement_event: unsupported advertisements are
ignored; for a supported one, if the address is not yet in the devices
table the scanner is stopped, read_device_id runs, and the scanner is
restarted; otherwise, when the decoded payload carries both temperature
and humidity, a sample is persisted via db.add_sample and only then the
sample record is handed to the broadcast path (publish_sample, wired as
the on_sample callback in web_backend), while a missing reading leaves
the state untouched without error. ValueError from add_sample is caught
and logged. -/
def processAdvertisementEvent (s : PState) (a : Advert) : PState :=
  if a.supported then
    if deviceExists s.db a.address then
      match getDeviceSpId s.db a.address, a.temperature, a.humidity with
      | some spId, some t, some h =>
          match addSample s.db spId t h a.now with
          | .ok (db2, _) =>
              { s with
                  db := db2,
                  queue := publishSample db2 (some spId) (some t) (some h)
                            (some a.now) a.now s.queue,
                  trace := s.trace ++
                    [Action.persist spId,
                     Action.publish ⟨spId, publishedName db2 spId, t, h, a.now⟩] }
          | .error _ => s
      | _, _, _ => s
    else
      let s1 : PState := { s with trace := s.trace ++ [Action.scanStop] }
      let s2 := readDeviceId s1 a
      { s2 with trace := s2.trace ++ [Action.scanStart] }
  else s

/-- sp_ble.advertisement_loop: the single consumer drains the FIFO
advertisement queue and processes each event to completion before the
next. -/
def runEvents (s : PState) (as : List Advert) : PState :=
  as.foldl processAdvertisementEvent s

/-- Recognizer for identity-read attempts in a trace. -/
def Action.isRead : Action → Bool
  | .readAttempt => true
  | _ => false

/-- Recognizer for scanner stops in a trace. -/
def Action.isStop : Action → Bool
  | .scanStop => true
  | _ => false

/-- Recognizer for scanner restarts in a trace. -/
def Action.isStart : Action → Bool
  | .scanStart => true
  | _ => false

/-- Number of identity-read attempts performed so far. -/
def readCount (s : PState) : Nat := (s.trace.filter Action.isRead).length

/-- Number of scanner stops performed so far. -/
def stopCount (s : PState) : Nat := (s.trace.filter Action.isStop).length

/-- Number of scanner restarts performed so far. -/
def startCount (s : PState) : Nat := (s.trace.filter Action.isStart).length

/-- The shared global sample_queue consumed concurrently by every
sensor_updates_subscription generator: each asyncio.Queue.get() hands the
head item to exactly one waiting subscriber. Given the FIFO queue
contents and a schedule saying which of two registered subscribers is
served each item, it returns what each subscriber receives. -/
def drainShared {α : Type} : List α → List Bool → List α × List α
  | [], _ => ([], [])
  | _ :: _, [] => ([], [])
  | x :: xs, b :: bs =>
      let p := drainShared xs bs
      if b then (x :: p.1, p.2) else (p.1, x :: p.2)

/-- Uniqueness invariant enforced by the UNIQUE constraint on
device_names.device_sp_id: at most one name row per device. -/
def namesUnique (db : Db) : Prop :=
  db.deviceNames.Pairwise (fun r1 r2 => r1.spId ≠ r2.spId)

/-- Pipeline state at process start: empty database, empty sample queue,
empty trace. -/
def pipelineInit : PState := ⟨emptyDb, [], []⟩

/-- Advertisement from an unseen address whose identity characteristic
returns the bytes 01 00 00 00. -/
def advResolve : Advert := ⟨"AA:BB", true, none, none, some [1, 0, 0, 0], 0⟩

/-- Advertisement from an unseen address whose identity read raises (for
example a connection timeout). -/
def advReadFail : Advert := ⟨"AA:BB", true, none, none, none, 0⟩

/-- Advertisement from an unseen address whose identity read returns only
two bytes. -/
def advShortRead : Advert := ⟨"AA:BB", true, none, none, some [1, 0], 0⟩

/-- Advertisement carrying both a temperature and a humidity reading. -/
def advSample : Advert := ⟨"AA:BB", true, some 23, some 45, none, 7⟩

/-- Advertisement carrying a temperature but no humidity reading. -/
def advNoHum : Advert := ⟨"AA:BB", true, some 23, none, none, 7⟩

/-- Advertisement whose payload is not a supported SensorPush
advertisement. -/
def advUnsupported : Advert := ⟨"CC:DD", false, some 23, some 45, some [1, 0, 0, 0], 0⟩

/-- Pipeline state in which device number 1 at address AA:BB is already
registered. -/
def knownState : PState := ⟨⟨2, [⟨1, 1, "AA:BB"⟩], 1, [], []⟩, [], []⟩

/-- Database with one device and two samples for it that share the same
created_on timestamp; the row with rowid 2 was inserted after the row
with rowid 1. -/
def tieDb : Db := ⟨2, [⟨1, 1, "AA:BB"⟩], 3,
  [⟨1, 1, 10, 20, 30⟩, ⟨2, 1, 10, 25, 35⟩], []⟩

/-- A sample record published while two subscribers are registered. -/
def lostSample : BRecord := ⟨1, "", 23, 45, 0⟩

/-- C9: an advertisement event whose payload is not recognized as a
supported SensorPush advertisement changes nothing: the whole pipeline
state is returned unchanged, hence no identity-read attempt is made, the
scanner is never stopped, no device or sample row is persisted, and no
broadcast record is produced. -/
theorem unsupported_advert_is_noop (s : PState) (a : Advert)
    (h : a.supported = false) :
    processAdvertisementEvent s a = s ∧
    readCount (processAdvertisementEvent s a) = readCount s ∧
    stopCount (processAdvertisementEvent s a) = stopCount s ∧
    (processAdvertisementEvent s a).db = s.db ∧
    (processAdvertisementEvent s a).queue = s.queue := by
  have he : processAdvertisementEvent s a = s := by
    simp [processAdvertisementEvent, h]
  exact ⟨he, by rw [he], by rw [he], by rw [he], by rw [he]⟩

/-- Witness for the C9 theorem at a concrete unsupported advertisement. -/
theorem unsupported_advert_is_noop_witness :
    processAdvertisementEvent pipelineInit advUnsupported = pipelineInit :=
  (unsupported_advert_is_noop pipelineInit advUnsupported rfl).1

/-- C10: publish_sample with a record missing the device number, the
temperature, or the humidity field returns normally without raising and
enqueues nothing: the subscriber-facing sample queue is unchanged. -/
theorem publish_sample_missing_field_noop (db : Db) (spId : Option Nat)
    (t h : Option Rat) (ts : Option Nat) (now : Nat) (q : List BRecord)
    (hmiss : spId = none ∨ t = none ∨ h = none) :
    publishSample db spId t h ts now q = q := by
  cases spId <;> cases t <;> cases h <;> simp_all [publishSample]

/-- Witness for the C10 theorem at a concrete record missing its humidity
field. -/
theorem publish_sample_missing_field_noop_witness :
    publishSample emptyDb (some 1) (some 23) none none 7 [] = [] :=
  publish_sample_missing_field_noop emptyDb (some 1) (some 23) none none 7 []
    (Or.inr (Or.inr rfl))

/-- C5: add_sample with a device_number that is not a registered device
fails with the reference-error failure, and no sample row is persisted:
the call never returns a successor database. -/
theorem add_sample_unregistered_fails (db : Db) (spId : Nat)
    (t h : Rat) (now : Nat)
    (hunk : ∀ d ∈ db.devices, d.spId ≠ spId) :
    addSample db spId t h now = .error .referenceErr ∧
    ∀ db2 sid, addSample db spId t h now ≠ .ok (db2, sid) := by
  have hb : db.devices.any (fun d => d.spId == spId) = false := by
    rw [List.any_eq_false]
    intro d hd
    simpa using hunk d hd
  constructor
  · simp [addSample, hb]
  · intro db2 sid hcontra
    rw [addSample, hb] at hcontra
    simp at hcontra

/-- Witness for the C5 theorem: adding a sample for device 5 against the
empty database fails with the reference error. -/
theorem add_sample_unregistered_fails_witness :
    addSample emptyDb 5 23 45 0 = .error .referenceErr :=
  (add_sample_unregistered_fails emptyDb 5 23 45 0 (by intro d hd; simp [emptyDb] at hd)).1

/-- C6: add_device with a device_number or radio_address equal to an
existing device's key fails with the conflict-error failure and produces
no successor database (no partial row), while a call with both keys fresh
succeeds, appends exactly the new row, and returns the storage-assigned
autoincrement internal id. -/
theorem add_device_conflict_or_fresh (db : Db) (spId : Nat) (ble : String) :
    ((∃ d ∈ db.devices, d.spId = spId ∨ d.bleId = ble) →
      addDevice db spId ble = .error .conflictErr) ∧
    ((∀ d ∈ db.devices, d.spId ≠ spId ∧ d.bleId ≠ ble) →
      addDevice db spId ble =
        .ok ({ db with
                devices := db.devices ++ [⟨db.nextDeviceId, spId, ble⟩],
                nextDeviceId := db.nextDeviceId + 1 },
             db.nextDeviceId)) := by
  constructor
  · intro hdup
    have hb : db.devices.any (fun d => d.spId == spId || d.bleId == ble) = true := by
      rw [List.any_eq_true]
      obtain ⟨d, hd, hcase⟩ := hdup
      exact ⟨d, hd, by rcases hcase with hc | hc <;> simp [hc]⟩
    simp [addDevice, hb]
  · intro hfresh
    have hb : db.devices.any (fun d => d.spId == spId || d.bleId == ble) = false := by
      rw [List.any_eq_false]
      intro d hd
      have := hfresh d hd
      simp [this.1, this.2]
    simp [addDevice, hb]

/-- Witness for the C6 theorem: inserting device 1 twice under the same
keys conflicts the second time, and the first insert returns internal id
1 with exactly the new row appended. -/
theorem add_device_conflict_or_fresh_witness :
    addDevice emptyDb 1 "AA:BB" =
      .ok ({ emptyDb with
              devices := emptyDb.devices ++ [⟨emptyDb.nextDeviceId, 1, "AA:BB"⟩],
              nextDeviceId := emptyDb.nextDeviceId + 1 },
           emptyDb.nextDeviceId) ∧
    addDevice knownState.db 1 "AA:BB" = .error .conflictErr :=
  ⟨(add_device_conflict_or_fresh emptyDb 1 "AA:BB").2
      (by intro d hd; simp [emptyDb] at hd),
   (add_device_conflict_or_fresh knownState.db 1 "AA:BB").1
      ⟨⟨1, 1, "AA:BB"⟩, by simp [knownState], Or.inl rfl⟩⟩

/-- C1 (code bug evidence): the samples feed is a single shared
asyncio.Queue drained by every subscriber, so a published sample is
handed to exactly one of two registered subscribers. Here one sample is
published while subscribers A and B are both registered; A is served the
queue item and B receives nothing, contradicting the claim that both
receive every sample. -/
theorem shared_queue_single_delivery :
    drainShared [lostSample] [true] = ([lostSample], []) ∧
    lostSample ∉ (drainShared [lostSample] [true]).2 := by
  decide

/-- The little-endian fold is bounded by 256 to the number of bytes when
every byte is below 256. -/
theorem foldrLE_lt : ∀ (l : List Nat), (∀ b ∈ l, b < 256) →
    l.foldr (fun b acc => b + 256 * acc) 0 < 256 ^ l.length := by
  intro l
  induction l with
  | nil => simp
  | cons b t ih =>
      intro hb
      have hbb : b < 256 := hb b (by simp)
      have ht := ih (fun x hx => hb x (by simp [hx]))
      simp only [List.foldr_cons, List.length_cons, pow_succ]
      nlinarith

/-- C3: the device number produced by read_device_id is the unsigned
little-endian 32-bit integer encoded by the first four payload bytes:
for a payload of at least 4 bytes its value is byte0 plus 2 to the 8th
times byte1 plus 2 to the 16th times byte2 plus 2 to the 24th times
byte3, and it fits in 32 bits; the scenario payload 01 00 00 00 read for
the unknown address AA:BB registers a device with device number 1; and a
payload of fewer than 4 bytes registers no device, leaving the database
untouched. -/
theorem identity_read_little_endian (raw : List Nat) (s : PState) (a : Advert) :
    (4 ≤ raw.length →
      fromLE4 raw = raw.getD 0 0 + 2 ^ 8 * raw.getD 1 0
        + 2 ^ 16 * raw.getD 2 0 + 2 ^ 24 * raw.getD 3 0) ∧
    ((∀ b ∈ raw, b < 256) → fromLE4 raw < 2 ^ 32) ∧
    (a.readResult = some raw → raw.length < 4 → (readDeviceId s a).db = s.db) ∧
    (processAdvertisementEvent pipelineInit advResolve).db.devices
      = [⟨1, 1, "AA:BB"⟩] := by
  refine ⟨?_, ?_, ?_, by decide⟩
  · intro h4
    match raw, h4 with
    | b0 :: b1 :: b2 :: b3 :: rest, _ =>
        show b0 + 256 * (b1 + 256 * (b2 + 256 * (b3 + 256 * 0)))
          = b0 + 2 ^ 8 * b1 + 2 ^ 16 * b2 + 2 ^ 24 * b3
        ring
  · intro hb
    have h := foldrLE_lt (raw.take 4)
      (fun b hbm => hb b (List.take_subset 4 raw hbm))
    have hlen : (raw.take 4).length ≤ 4 := by
      simp [List.length_take]
    have hpow : (256 : Nat) ^ (raw.take 4).length ≤ 256 ^ 4 :=
      Nat.pow_le_pow_right (by norm_num) hlen
    have : fromLE4 raw < 256 ^ 4 := lt_of_lt_of_le h hpow
    calc fromLE4 raw < 256 ^ 4 := this
      _ = 2 ^ 32 := by norm_num
  · intro hres hlen
    rw [readDeviceId, hres]
    dsimp only
    rw [if_neg (by omega)]

/-- Witness for the C3 theorem: the formula and bound at the concrete
payload 01 00 00 00, and the untouched database for a concrete two-byte
payload. -/
theorem identity_read_little_endian_witness :
    fromLE4 [1, 0, 0, 0] = 1 ∧ fromLE4 [1, 0, 0, 0] < 2 ^ 32 ∧
    (readDeviceId pipelineInit advShortRead).db = pipelineInit.db := by
  refine ⟨?_, ?_, ?_⟩
  · have h := (identity_read_little_endian [1, 0, 0, 0] pipelineInit advShortRead).1
      (by decide)
    simpa using h
  · exact (identity_read_little_endian [1, 0, 0, 0] pipelineInit advShortRead).2.1
      (by decide)
  · exact (identity_read_little_endian [1, 0] pipelineInit advShortRead).2.2.1
      rfl (by decide)

/-- Any over a pointwise disjunction of predicates splits into a
disjunction of anys. -/
theorem any_or_split {α : Type} (l : List α) (p q : α → Bool) :
    l.any (fun x => p x || q x) = (l.any p || l.any q) := by
  induction l with
  | nil => rfl
  | cons x t ih =>
      simp only [List.any_cons, ih]
      cases p x <;> cases q x <;> simp

/-- A successful add_sample only appends the new sample row and bumps the
autoincrement counter; devices and names are untouched. -/
theorem addSample_ok_fields (db : Db) (sp : Nat) (t h : Rat) (now : Nat)
    (db2 : Db) (sid : Nat) (heq : addSample db sp t h now = .ok (db2, sid)) :
    db2.devices = db.devices ∧ db2.deviceNames = db.deviceNames ∧
    db2.samples = db.samples ++ [⟨db.nextSampleId, sp, now, t, h⟩] ∧
    sid = db.nextSampleId := by
  rw [addSample] at heq
  split at heq
  · simp only [Except.ok.injEq, Prod.mk.injEq] at heq
    obtain ⟨h1, h2⟩ := heq
    subst h2
    rw [← h1]
    exact ⟨rfl, rfl, rfl, rfl⟩
  · cases heq

/-- Processing an advertisement for an address already present in the
devices table adds no identity read, no scanner stop and no scanner
restart to the trace, and leaves the devices table unchanged. -/
theorem processKnown (s : PState) (a : Advert)
    (hk : deviceExists s.db a.address = true) :
    ∃ extra, (processAdvertisementEvent s a).trace = s.trace ++ extra ∧
      extra.filter Action.isRead = [] ∧
      extra.filter Action.isStop = [] ∧
      extra.filter Action.isStart = [] ∧
      (processAdvertisementEvent s a).db.devices = s.db.devices := by
  by_cases hsup : a.supported = true
  · rcases hsp : getDeviceSpId s.db a.address with _ | spId
    · exact ⟨[], by simp [processAdvertisementEvent, hsup, hk, hsp]⟩
    · rcases htemp : a.temperature with _ | t
      · exact ⟨[], by simp [processAdvertisementEvent, hsup, hk, hsp, htemp]⟩
      · rcases hhum : a.humidity with _ | h
        · exact ⟨[], by simp [processAdvertisementEvent, hsup, hk, hsp, htemp, hhum]⟩
        · rcases heq : addSample s.db spId t h a.now with e | ⟨db2, sid⟩
          · exact ⟨[], by
              simp [processAdvertisementEvent, hsup, hk, hsp, htemp, hhum, heq]⟩
          · refine ⟨[Action.persist spId,
              Action.publish ⟨spId, publishedName db2 spId, t, h, a.now⟩], ?_⟩
            have hdev := (addSample_ok_fields s.db spId t h a.now db2 sid heq).1
            simp [processAdvertisementEvent, hsup, hk, hsp, htemp, hhum, heq,
              Action.isRead, Action.isStop, Action.isStart, hdev]
  · have hs : a.supported = false := by
      cases hval : a.supported
      · rfl
      · exact absurd hval hsup
    exact ⟨[], by simp [processAdvertisementEvent, hs]⟩

/-- Runs of advertisements all addressed to a device already in the
devices table perform no identity read and keep the device present. -/
theorem runEvents_known (addr : String) :
    ∀ (as : List Advert) (s : PState),
      deviceExists s.db addr = true → (∀ b ∈ as, b.address = addr) →
      readCount (runEvents s as) = readCount s ∧
      deviceExists (runEvents s as).db addr = true := by
  intro as
  induction as with
  | nil => intro s h1 _; exact ⟨rfl, h1⟩
  | cons b t ih =>
      intro s h1 h2
      have hb : b.address = addr := h2 b (by simp)
      obtain ⟨extra, htr, hr, _, _, hdev⟩ := processKnown s b (by rw [hb]; exact h1)
      have h1' : deviceExists (processAdvertisementEvent s b).db addr = true := by
        unfold deviceExists at h1 ⊢
        rw [hdev]; exact h1
      have hrun : runEvents s (b :: t) = runEvents (processAdvertisementEvent s b) t := by
        simp [runEvents]
      obtain ⟨hcount, hdev2⟩ := ih (processAdvertisementEvent s b) h1'
        (fun x hx => h2 x (by simp [hx]))
      refine ⟨?_, by rw [hrun]; exact hdev2⟩
      rw [hrun, hcount]
      unfold readCount
      rw [htr, List.filter_append, hr]
      simp

/-- Shape of the trace of one resolution attempt: a scanner stop, then
exactly one identity-read attempt, then possibly a device registration,
then exactly one scanner restart, whatever the outcome of the read and
of the registration. -/
theorem processUnknown_shape (s : PState) (a : Advert)
    (hsup : a.supported = true) (hunk : deviceExists s.db a.address = false) :
    ∃ regs, (processAdvertisementEvent s a).trace
        = s.trace ++ [Action.scanStop, Action.readAttempt]
            ++ regs ++ [Action.scanStart] ∧
      (regs = [] ∨ ∃ sp, regs = [Action.register sp]) := by
  rcases hres : a.readResult with _ | raw
  · exact ⟨[], by
      simp [processAdvertisementEvent, readDeviceId, hsup, hunk, hres], Or.inl rfl⟩
  · by_cases hlen : 4 ≤ raw.length
    · rcases hadd : addDevice s.db (fromLE4 raw) a.address with e | ⟨db2, did⟩
      · exact ⟨[], by
          simp [processAdvertisementEvent, readDeviceId, hsup, hunk, hres, hlen, hadd],
          Or.inl rfl⟩
      · exact ⟨[Action.register (fromLE4 raw)], by
          simp [processAdvertisementEvent, readDeviceId, hsup, hunk, hres, hlen, hadd],
          Or.inr ⟨fromLE4 raw, rfl⟩⟩
    · exact ⟨[], by
        simp [processAdvertisementEvent, readDeviceId, hsup, hunk, hres, hlen],
        Or.inl rfl⟩

/-- One resolution attempt performs exactly one identity read, one
scanner stop and one scanner restart, regardless of outcome. -/
theorem processUnknown_counts (s : PState) (a : Advert)
    (hsup : a.supported = true) (hunk : deviceExists s.db a.address = false) :
    readCount (processAdvertisementEvent s a) = readCount s + 1 ∧
    stopCount (processAdvertisementEvent s a) = stopCount s + 1 ∧
    startCount (processAdvertisementEvent s a) = startCount s + 1 := by
  obtain ⟨regs, htr, hcases⟩ := processUnknown_shape s a hsup hunk
  have hread : regs.filter Action.isRead = [] := by
    rcases hcases with rfl | ⟨sp, rfl⟩ <;> simp [Action.isRead]
  have hstop : regs.filter Action.isStop = [] := by
    rcases hcases with rfl | ⟨sp, rfl⟩ <;> simp [Action.isStop]
  have hstart : regs.filter Action.isStart = [] := by
    rcases hcases with rfl | ⟨sp, rfl⟩ <;> simp [Action.isStart]
  refine ⟨?_, ?_, ?_⟩
  · unfold readCount
    rw [htr]
    simp [List.filter_append, hread, Action.isRead]
  · unfold stopCount
    rw [htr]
    simp [List.filter_append, hstop, Action.isStop]
  · unfold startCount
    rw [htr]
    simp [List.filter_append, hstart, Action.isStart]

/-- A successful resolution attempt (read returns at least 4 bytes and
the decoded device number is fresh) registers the address. -/
theorem processUnknown_success (s : PState) (a : Advert) (raw : List Nat)
    (hsup : a.supported = true) (hunk : deviceExists s.db a.address = false)
    (hres : a.readResult = some raw) (hlen : 4 ≤ raw.length)
    (hfresh : deviceSpIdExists s.db (fromLE4 raw) = false) :
    deviceExists (processAdvertisementEvent s a).db a.address = true := by
  have hunk' : s.db.devices.any (fun d => d.bleId == a.address) = false := hunk
  have hfresh' : s.db.devices.any (fun d => d.spId == fromLE4 raw) = false := hfresh
  have hany : s.db.devices.any
      (fun d => d.spId == fromLE4 raw || d.bleId == a.address) = false := by
    rw [any_or_split, hfresh', hunk']
    rfl
  have hadd : addDevice s.db (fromLE4 raw) a.address =
      .ok ({ s.db with
              devices := s.db.devices ++ [⟨s.db.nextDeviceId, fromLE4 raw, a.address⟩],
              nextDeviceId := s.db.nextDeviceId + 1 }, s.db.nextDeviceId) := by
    simp [addDevice, hany]
  have hstate : (processAdvertisementEvent s a).db.devices
      = s.db.devices ++ [⟨s.db.nextDeviceId, fromLE4 raw, a.address⟩] := by
    rw [processAdvertisementEvent]
    rw [if_pos hsup, if_neg (by rw [hunk]; simp)]
    try dsimp only
    rw [readDeviceId]
    try dsimp only
    rw [hres]
    try dsimp only
    rw [if_pos hlen]
    try dsimp only
    rw [hadd]
  unfold deviceExists
  rw [hstate, List.any_append, hunk']
  simp

/-- C2 (amended): every advertisement for a still-unregistered address
triggers exactly one identity-read attempt framed by exactly one scanner
stop before it and exactly one scanner restart after it, regardless of
whether the read raises, returns too few bytes, or the registration
fails; an advertisement for a registered address triggers no read, stop
or restart; and for a run of advertisements for the same new address
whose first identity read succeeds with a fresh device number, exactly
one identity-read attempt occurs over the whole run. -/
theorem resolution_read_resume_discipline
    (s : PState) (a : Advert) (as : List Advert) (raw : List Nat) :
    (a.supported = true → deviceExists s.db a.address = false →
      (∃ regs, (processAdvertisementEvent s a).trace
          = s.trace ++ [Action.scanStop, Action.readAttempt]
              ++ regs ++ [Action.scanStart] ∧
          (regs = [] ∨ ∃ sp, regs = [Action.register sp])) ∧
      readCount (processAdvertisementEvent s a) = readCount s + 1 ∧
      stopCount (processAdvertisementEvent s a) = stopCount s + 1 ∧
      startCount (processAdvertisementEvent s a) = startCount s + 1) ∧
    (deviceExists s.db a.address = true →
      readCount (processAdvertisementEvent s a) = readCount s ∧
      stopCount (processAdvertisementEvent s a) = stopCount s ∧
      startCount (processAdvertisementEvent s a) = startCount s) ∧
    (a.supported = true → deviceExists s.db a.address = false →
      a.readResult = some raw → 4 ≤ raw.length →
      deviceSpIdExists s.db (fromLE4 raw) = false →
      (∀ b ∈ as, b.address = a.address) →
      readCount (runEvents s (a :: as)) = readCount s + 1) := by
  refine ⟨?_, ?_, ?_⟩
  · intro hsup hunk
    exact ⟨processUnknown_shape s a hsup hunk, processUnknown_counts s a hsup hunk⟩
  · intro hk
    obtain ⟨extra, htr, hr, hsto, hsta, _⟩ := processKnown s a hk
    refine ⟨?_, ?_, ?_⟩
    · unfold readCount; rw [htr, List.filter_append, hr]; simp
    · unfold stopCount; rw [htr, List.filter_append, hsto]; simp
    · unfold startCount; rw [htr, List.filter_append, hsta]; simp
  · intro hsup hunk hres hlen hfresh hall
    have hsucc := processUnknown_success s a raw hsup hunk hres hlen hfresh
    have hrun : runEvents s (a :: as) = runEvents (processAdvertisementEvent s a) as := by
      simp [runEvents]
    rw [hrun, (runEvents_known a.address as _ hsucc hall).1]
    exact (processUnknown_counts s a hsup hunk).1

/-- Witness for the C2 theorem: a successful resolution of AA:BB followed
by a sample advertisement performs exactly one read over the run, and a
sample advertisement for an already-known address performs none. -/
theorem resolution_read_resume_discipline_witness :
    readCount (runEvents pipelineInit [advResolve, advSample])
      = readCount pipelineInit + 1 ∧
    readCount (processAdvertisementEvent knownState advSample)
      = readCount knownState := by
  constructor
  · exact (resolution_read_resume_discipline pipelineInit advResolve
      [advSample] [1, 0, 0, 0]).2.2 rfl (by decide) rfl (by decide) (by decide)
      (by decide)
  · exact ((resolution_read_resume_discipline knownState advSample [] []).2.1
      (by decide)).1

/-- Counterexample to C2 as stated: two advertisements for the same unseen
address AA:BB whose identity reads both raise cause two identity-read
attempts, not exactly one. -/
theorem repeated_failed_reads_two_attempts :
    readCount (runEvents pipelineInit [advReadFail, advReadFail]) = 2 ∧
    ¬ readCount (runEvents pipelineInit [advReadFail, advReadFail]) = 1 := by
  decide

/-- A successful lookup of a device number by address implies the address
and the returned device number are both registered. -/
theorem getDeviceSpId_facts (db : Db) (addr : String) (sp : Nat)
    (h : getDeviceSpId db addr = some sp) :
    deviceExists db addr = true ∧ deviceSpIdExists db sp = true := by
  unfold getDeviceSpId at h
  rcases hf : db.devices.find? (fun d => d.bleId == addr) with _ | d
  · rw [hf] at h; cases h
  · rw [hf] at h
    simp only [Option.map_some'] at h
    have hspid : d.spId = sp := by
      cases h; rfl
    have hd := List.mem_of_find?_eq_some hf
    have hpred := List.find?_some hf
    constructor
    · exact List.any_eq_true.mpr ⟨d, hd, hpred⟩
    · exact List.any_eq_true.mpr ⟨d, hd, by simp [hspid]⟩

/-- C8: for an advertisement from a device already registered under its
address, if the decoded payload carries both a temperature and a humidity
reading then exactly one sample row is persisted and only afterwards one
distribution record carrying the device number, the resolved friendly
name, the temperature, the humidity and the timestamp is handed to the
broadcast path (the trace shows the persist action before the publish
action); if either reading is absent, the state is returned completely
unchanged, without error: no sample, no broadcast. -/
theorem known_device_sample_pipeline (s : PState) (a : Advert) (spId : Nat)
    (hsup : a.supported = true) (hsp : getDeviceSpId s.db a.address = some spId) :
    (∀ t h, a.temperature = some t → a.humidity = some h →
      (processAdvertisementEvent s a).db.samples
          = s.db.samples ++ [⟨s.db.nextSampleId, spId, a.now, t, h⟩] ∧
      (processAdvertisementEvent s a).queue
          = s.queue ++ [⟨spId, publishedName s.db spId, t, h, a.now⟩] ∧
      (processAdvertisementEvent s a).trace
          = s.trace ++ [Action.persist spId,
              Action.publish ⟨spId, publishedName s.db spId, t, h, a.now⟩]) ∧
    ((a.temperature = none ∨ a.humidity = none) →
      processAdvertisementEvent s a = s) := by
  obtain ⟨hk, hspex⟩ := getDeviceSpId_facts s.db a.address spId hsp
  have hspex' : s.db.devices.any (fun d => d.spId == spId) = true := hspex
  constructor
  · intro t h htemp hhum
    have haddok : addSample s.db spId t h a.now =
        .ok ({ s.db with
                samples := s.db.samples ++ [⟨s.db.nextSampleId, spId, a.now, t, h⟩],
                nextSampleId := s.db.nextSampleId + 1 }, s.db.nextSampleId) := by
      unfold addSample
      rw [if_pos hspex']
    have hname : publishedName
        ({ s.db with
            samples := s.db.samples ++ [⟨s.db.nextSampleId, spId, a.now, t, h⟩],
            nextSampleId := s.db.nextSampleId + 1 }) spId
        = publishedName s.db spId := rfl
    refine ⟨?_, ?_, ?_⟩ <;>
      simp [processAdvertisementEvent, hsup, hk, hsp, htemp, hhum, haddok,
        publishSample, hname]
  · intro hmiss
    rcases hmiss with hm | hm
    · simp [processAdvertisementEvent, hsup, hk, hsp, hm]
    · rcases htemp : a.temperature with _ | t <;>
        simp [processAdvertisementEvent, hsup, hk, hsp, htemp, hm]

/-- Witness for the C8 theorem: concrete sample advertisement for the
known device 1 persists the sample and enqueues the record, and the same
advertisement without a humidity reading changes nothing. -/
theorem known_device_sample_pipeline_witness :
    (processAdvertisementEvent knownState advSample).db.samples
        = knownState.db.samples
            ++ [⟨knownState.db.nextSampleId, 1, advSample.now, 23, 45⟩] ∧
    (processAdvertisementEvent knownState advSample).queue
        = knownState.queue
            ++ [⟨1, publishedName knownState.db 1, 23, 45, advSample.now⟩] ∧
    processAdvertisementEvent knownState advNoHum = knownState := by
  have h1 := known_device_sample_pipeline knownState advSample 1 rfl (by decide)
  have h2 := known_device_sample_pipeline knownState advNoHum 1 rfl (by decide)
  exact ⟨(h1.1 23 45 rfl rfl).1, (h1.1 23 45 rfl rfl).2.1, h2.2 (Or.inr rfl)⟩

/-- Mapping a function that fixes every element of a list leaves the list
unchanged. -/
theorem map_id_of_fixed {α : Type} : ∀ (l : List α) (f : α → α),
    (∀ x ∈ l, f x = x) → l.map f = l := by
  intro l f
  induction l with
  | nil => intro _; rfl
  | cons x t ih =>
      intro h
      rw [List.map_cons, h x (by simp), ih (fun y hy => h y (by simp [hy]))]

/-- Appending a fresh name row yields exactly that row when filtering for
its device. -/
theorem filter_insert_name (l : List NameRow) (sp : Nat) (n : String)
    (h : l.any (fun r => r.spId == sp) = false) :
    (l ++ [(⟨sp, n⟩ : NameRow)]).filter (fun r => r.spId == sp) = [⟨sp, n⟩] := by
  rw [List.filter_append]
  have hnil : l.filter (fun r => r.spId == sp) = [] := by
    rw [List.filter_eq_nil_iff]
    intro r hr
    exact (List.any_eq_false.mp h) r hr
  rw [hnil]
  simp

/-- Updating the unique name row of a device by mapping the upsert
function yields exactly the updated row when filtering for that device. -/
theorem filter_map_upd (sp : Nat) (n : String) : ∀ (l : List NameRow),
    l.Pairwise (fun r1 r2 => r1.spId ≠ r2.spId) →
    l.any (fun r => r.spId == sp) = true →
    (l.map (fun r => if r.spId == sp then ⟨r.spId, n⟩ else r)).filter
        (fun r => r.spId == sp) = [⟨sp, n⟩] := by
  intro l
  induction l with
  | nil => intro _ hany; cases hany
  | cons r t ih =>
      intro hpw hany
      obtain ⟨hhead, htail⟩ := List.pairwise_cons.mp hpw
      by_cases hr : r.spId = sp
      · have hb : (r.spId == sp) = true := by simp [hr]
        rw [List.map_cons, if_pos hb, List.filter_cons]
        have hmapped : ((⟨r.spId, n⟩ : NameRow).spId == sp) = true := hb
        rw [if_pos hmapped]
        have htnil : (t.map (fun r => if r.spId == sp then ⟨r.spId, n⟩ else r)).filter
            (fun r => r.spId == sp) = [] := by
          rw [List.filter_eq_nil_iff]
          intro y hy
          rw [List.mem_map] at hy
          obtain ⟨x, hx, hfx⟩ := hy
          have hxsp : x.spId ≠ sp := by
            have := hhead x hx
            rw [hr] at this
            exact fun hc => this (hc ▸ rfl)
          have hysp : y.spId = x.spId := by
            rw [← hfx]
            split <;> rfl
          simp [hysp, hxsp]
        rw [htnil, hr]
      · have hb : (r.spId == sp) = false := by simp [hr]
        have htany : t.any (fun r => r.spId == sp) = true := by
          rw [List.any_cons, hb] at hany
          simpa using hany
        rw [List.map_cons, if_neg (by simp [hr]), List.filter_cons,
          if_neg (by simp [hr])]
        exact ih htail htany

/-- Mapping the upsert function over a list whose only row for the device
already carries the new name is the identity. -/
theorem map_upd_id (sp : Nat) (n : String) : ∀ (l : List NameRow),
    l.filter (fun r => r.spId == sp) = [⟨sp, n⟩] →
    l.map (fun r => if r.spId == sp then ⟨r.spId, n⟩ else r) = l := by
  intro l
  induction l with
  | nil => intro h; simp at h
  | cons r t ih =>
      intro h
      rw [List.filter_cons] at h
      by_cases hr : (r.spId == sp) = true
      · rw [if_pos hr] at h
        simp only [List.cons.injEq] at h
        obtain ⟨h1, h2⟩ := h
        rw [List.map_cons, if_pos hr]
        have hrow : (⟨r.spId, n⟩ : NameRow) = r := by
          rw [h1]
        have htfix : t.map (fun r => if r.spId == sp then ⟨r.spId, n⟩ else r) = t := by
          apply map_id_of_fixed
          intro x hx
          have hxf := (List.filter_eq_nil_iff.mp h2) x hx
          rw [if_neg hxf]
        rw [hrow, htfix]
      · rw [if_neg hr] at h
        rw [List.map_cons, if_neg hr, ih h]

/-- Inserting a name row for a device with no existing row preserves
per-device uniqueness of name rows. -/
theorem namesUnique_insert (l : List NameRow) (sp : Nat) (n : String)
    (h : l.any (fun r => r.spId == sp) = false)
    (hpw : l.Pairwise (fun r1 r2 => r1.spId ≠ r2.spId)) :
    (l ++ [(⟨sp, n⟩ : NameRow)]).Pairwise (fun r1 r2 => r1.spId ≠ r2.spId) := by
  rw [List.pairwise_append]
  refine ⟨hpw, by simp, ?_⟩
  intro x hx y hy
  simp only [List.mem_singleton] at hy
  subst hy
  have := (List.any_eq_false.mp h) x hx
  simpa using this

/-- The upsert map preserves per-device uniqueness of name rows. -/
theorem namesUnique_map_upd (l : List NameRow) (sp : Nat) (n : String)
    (hpw : l.Pairwise (fun r1 r2 => r1.spId ≠ r2.spId)) :
    (l.map (fun r => if r.spId == sp then ⟨r.spId, n⟩ else r)).Pairwise
      (fun r1 r2 => r1.spId ≠ r2.spId) := by
  rw [List.pairwise_map]
  refine hpw.imp ?_
  intro a b hab
  have ha : (if a.spId == sp then (⟨a.spId, n⟩ : NameRow) else a).spId = a.spId := by
    split <;> rfl
  have hb : (if b.spId == sp then (⟨b.spId, n⟩ : NameRow) else b).spId = b.spId := by
    split <;> rfl
  rw [ha, hb]
  exact hab

/-- A list whose filter for a device is a singleton has a row for that
device. -/
theorem any_of_filter_single (l : List NameRow) (sp : Nat) (x : NameRow)
    (h : l.filter (fun r => r.spId == sp) = [x]) :
    l.any (fun r => r.spId == sp) = true := by
  have hx : x ∈ l.filter (fun r => r.spId == sp) := by rw [h]; simp
  rw [List.mem_filter] at hx
  exact List.any_eq_true.mpr ⟨x, hx.1, hx.2⟩

/-- Specification of a successful update_device_name call: for a
registered device with unique name rows, the call succeeds, the device
ends with exactly one name row carrying the new name, devices and samples
are untouched, uniqueness is preserved, and a call that would not change
the single name row is a no-op on the whole database. -/
theorem updateDeviceName_ok (db : Db) (sp : Nat) (n : String)
    (hex : deviceSpIdExists db sp = true) (hu : namesUnique db) :
    ∃ db2, updateDeviceName db sp n = .ok db2 ∧
      db2.deviceNames.filter (fun r => r.spId == sp) = [⟨sp, n⟩] ∧
      db2.devices = db.devices ∧ db2.samples = db.samples ∧
      namesUnique db2 ∧
      (db.deviceNames.filter (fun r => r.spId == sp) = [⟨sp, n⟩] → db2 = db) := by
  have hex' : db.devices.any (fun d => d.spId == sp) = true := hex
  by_cases hn : db.deviceNames.any (fun r => r.spId == sp) = true
  · refine ⟨{ db with
        deviceNames := db.deviceNames.map
          (fun r => if r.spId == sp then ⟨r.spId, n⟩ else r) },
      ?_, ?_, rfl, rfl, ?_, ?_⟩
    · unfold updateDeviceName
      rw [if_pos hex', if_pos hn]
    · exact filter_map_upd sp n db.deviceNames hu hn
    · exact namesUnique_map_upd db.deviceNames sp n hu
    · intro hfil
      rw [map_upd_id sp n db.deviceNames hfil]
  · have hn' : db.deviceNames.any (fun r => r.spId == sp) = false := by
      cases hval : db.deviceNames.any (fun r => r.spId == sp)
      · rfl
      · exact absurd hval hn
    refine ⟨{ db with deviceNames := db.deviceNames ++ [⟨sp, n⟩] },
      ?_, ?_, rfl, rfl, ?_, ?_⟩
    · unfold updateDeviceName
      rw [if_pos hex', if_neg (by rw [hn']; simp)]
    · exact filter_insert_name db.deviceNames sp n hn'
    · exact namesUnique_insert db.deviceNames sp n hn' hu
    · intro hfil
      have := any_of_filter_single db.deviceNames sp _ hfil
      rw [hn'] at this
      cases this

/-- C7: rename_device has upsert semantics and is idempotent. For a
database whose name rows are unique per device: renaming an unknown
device number fails with the reference error; renaming a registered
device succeeds, leaving exactly one name row for it carrying the new
name and the devices table untouched; a second rename then again leaves
exactly one row carrying the second name, and when both names coincide
the second call leaves the database exactly as the first left it. -/
theorem rename_device_upsert_idempotent (db : Db) (sp : Nat) (n1 n2 : String)
    (hu : namesUnique db) :
    (deviceSpIdExists db sp = false →
      updateDeviceName db sp n1 = .error .referenceErr) ∧
    (deviceSpIdExists db sp = true →
      ∃ db1 db2,
        updateDeviceName db sp n1 = .ok db1 ∧
        db1.deviceNames.filter (fun r => r.spId == sp) = [⟨sp, n1⟩] ∧
        db1.devices = db.devices ∧
        updateDeviceName db1 sp n2 = .ok db2 ∧
        db2.deviceNames.filter (fun r => r.spId == sp) = [⟨sp, n2⟩] ∧
        (n2 = n1 → db2 = db1)) := by
  constructor
  · intro hex
    have hex' : db.devices.any (fun d => d.spId == sp) = false := hex
    unfold updateDeviceName
    rw [if_neg (by rw [hex']; simp)]
  · intro hex
    obtain ⟨db1, hok1, hfil1, hdev1, _, hu1, _⟩ := updateDeviceName_ok db sp n1 hex hu
    have hex1 : deviceSpIdExists db1 sp = true := by
      unfold deviceSpIdExists at hex ⊢
      rw [hdev1]
      exact hex
    obtain ⟨db2, hok2, hfil2, _, _, _, hid2⟩ := updateDeviceName_ok db1 sp n2 hex1 hu1
    refine ⟨db1, db2, hok1, hfil1, hdev1, hok2, hfil2, ?_⟩
    intro hnn
    subst hnn
    exact hid2 hfil1

/-- Witness for the C7 theorem: renaming device 1 to Garden and then to
Garden Shed leaves exactly one name row, carrying Garden Shed; renaming
device 2, which is unknown, fails. -/
theorem rename_device_upsert_idempotent_witness :
    (∃ db1 db2,
      updateDeviceName knownState.db 1 "Garden" = .ok db1 ∧
      updateDeviceName db1 1 "Garden Shed" = .ok db2 ∧
      db2.deviceNames.filter (fun r => r.spId == 1) = [⟨1, "Garden Shed"⟩]) ∧
    updateDeviceName knownState.db 2 "Garden" = .error .referenceErr := by
  constructor
  · obtain ⟨db1, db2, hok1, _, _, hok2, hfil2, _⟩ :=
      (rename_device_upsert_idempotent knownState.db 1 "Garden" "Garden Shed"
        (by simp [namesUnique, knownState])).2 (by decide)
    exact ⟨db1, db2, hok1, hok2, hfil2⟩
  · exact (rename_device_upsert_idempotent knownState.db 2 "Garden" "Garden"
      (by simp [namesUnique, knownState])).1 (by decide)

/-- One window-scan step has a result exactly when the accumulator is
occupied or the row belongs to the partition. -/
theorem latStep_isSome (sp : Nat) (acc : Option SampleRow) (r : SampleRow) :
    (latStep sp acc r).isSome = (acc.isSome || (r.spId == sp)) := by
  unfold latStep
  cases hr : (r.spId == sp)
  · simp
  · rw [if_pos rfl]
    cases acc
    · simp
    · dsimp only
      split <;> simp

/-- The window scan has a result exactly when the accumulator is occupied
or the partition is nonempty. -/
theorem latStep_foldl_isSome (sp : Nat) :
    ∀ (l : List SampleRow) (acc : Option SampleRow),
      (l.foldl (latStep sp) acc).isSome
        = (acc.isSome || l.any (fun r => r.spId == sp)) := by
  intro l
  induction l with
  | nil => intro acc; simp
  | cons r t ih =>
      intro acc
      rw [List.foldl_cons, List.any_cons, ih, latStep_isSome]
      simp [Bool.or_assoc]

/-- The window scan never decreases the created_on of the accumulator. -/
theorem latStep_foldl_mono (sp : Nat) : ∀ (l : List SampleRow) (z x : SampleRow),
    l.foldl (latStep sp) (some z) = some x → z.createdOn ≤ x.createdOn := by
  intro l
  induction l with
  | nil =>
      intro z x h
      cases h
      exact le_refl _
  | cons r t ih =>
      intro z x h
      rw [List.foldl_cons] at h
      unfold latStep at h
      by_cases hr : (r.spId == sp) = true
      · rw [if_pos hr] at h
        dsimp only at h
        by_cases hlt : z.createdOn < r.createdOn
        · rw [if_pos hlt] at h
          exact le_trans (le_of_lt hlt) (ih r x h)
        · rw [if_neg hlt] at h
          exact ih z x h
      · rw [if_neg hr] at h
        exact ih z x h

/-- The row selected by the window scan has maximal created_on within the
partition. -/
theorem latStep_foldl_le (sp : Nat) :
    ∀ (l : List SampleRow) (acc : Option SampleRow) (x : SampleRow),
      l.foldl (latStep sp) acc = some x →
      ∀ y ∈ l, y.spId = sp → y.createdOn ≤ x.createdOn := by
  intro l
  induction l with
  | nil => intro acc x _ y hy; cases hy
  | cons r t ih =>
      intro acc x h y hy hysp
      rw [List.foldl_cons] at h
      rcases List.mem_cons.mp hy with rfl | hyt
      · have hr : (y.spId == sp) = true := by simp [hysp]
        unfold latStep at h
        rw [if_pos hr] at h
        cases acc with
        | none =>
            dsimp only at h
            exact latStep_foldl_mono sp t y x h
        | some best =>
            dsimp only at h
            by_cases hlt : best.createdOn < y.createdOn
            · rw [if_pos hlt] at h
              exact latStep_foldl_mono sp t y x h
            · rw [if_neg hlt] at h
              have hbx := latStep_foldl_mono sp t best x h
              omega
      · exact ih (latStep sp acc r) x h y hyt hysp

/-- The row selected by the window scan comes from the accumulator or
from the scanned partition. -/
theorem latStep_foldl_mem (sp : Nat) :
    ∀ (l : List SampleRow) (acc : Option SampleRow) (x : SampleRow),
      l.foldl (latStep sp) acc = some x →
      acc = some x ∨ (x ∈ l ∧ x.spId = sp) := by
  intro l
  induction l with
  | nil => intro acc x h; exact Or.inl h
  | cons r t ih =>
      intro acc x h
      rw [List.foldl_cons] at h
      rcases ih (latStep sp acc r) x h with hacc | hmem
      · unfold latStep at hacc
        by_cases hr : (r.spId == sp) = true
        · rw [if_pos hr] at hacc
          cases acc with
          | none =>
              dsimp only at hacc
              cases hacc
              exact Or.inr ⟨by simp, by simpa using hr⟩
          | some best =>
              dsimp only at hacc
              by_cases hlt : best.createdOn < r.createdOn
              · rw [if_pos hlt] at hacc
                cases hacc
                exact Or.inr ⟨by simp, by simpa using hr⟩
              · rw [if_neg hlt] at hacc
                cases hacc
                exact Or.inl rfl
        · rw [if_neg hr] at hacc
          exact Or.inl hacc
      · exact Or.inr ⟨by simp [hmem.1], hmem.2⟩

/-- If every partition row scanned so far is strictly older than a bound
and the accumulator is empty or strictly older, the scan stays empty or
strictly older than the bound. -/
theorem latStep_foldl_lt (sp : Nat) (c : Nat) :
    ∀ (l : List SampleRow) (acc : Option SampleRow),
      (∀ y ∈ l, y.spId = sp → y.createdOn < c) →
      (acc = none ∨ ∃ z, acc = some z ∧ z.createdOn < c) →
      (l.foldl (latStep sp) acc = none ∨
        ∃ z, l.foldl (latStep sp) acc = some z ∧ z.createdOn < c) := by
  intro l
  induction l with
  | nil => intro acc _ hacc; simpa using hacc
  | cons r t ih =>
      intro acc hl hacc
      rw [List.foldl_cons]
      apply ih
      · intro y hy hsp
        exact hl y (by simp [hy]) hsp
      · unfold latStep
        by_cases hr : (r.spId == sp) = true
        · rw [if_pos hr]
          have hrc : r.createdOn < c := hl r (by simp) (by simpa using hr)
          rcases hacc with hnone | ⟨z, hz, hzc⟩
          · rw [hnone]
            exact Or.inr ⟨r, rfl, hrc⟩
          · rw [hz]
            dsimp only
            by_cases hlt : z.createdOn < r.createdOn
            · rw [if_pos hlt]
              exact Or.inr ⟨r, rfl, hrc⟩
            · rw [if_neg hlt]
              exact Or.inr ⟨z, rfl, hzc⟩
        · rw [if_neg hr]
          exact hacc

/-- A maximal accumulator survives the scan of rows that never strictly
exceed it. -/
theorem latStep_foldl_keep (sp : Nat) : ∀ (l : List SampleRow) (best : SampleRow),
    (∀ y ∈ l, y.spId = sp → y.createdOn ≤ best.createdOn) →
    l.foldl (latStep sp) (some best) = some best := by
  intro l
  induction l with
  | nil => intro best _; rfl
  | cons r t ih =>
      intro best hl
      rw [List.foldl_cons]
      have hstep : latStep sp (some best) r = some best := by
        unfold latStep
        by_cases hr : (r.spId == sp) = true
        · rw [if_pos hr]
          dsimp only
          rw [if_neg (by have := hl r (by simp) (by simpa using hr); omega)]
        · rw [if_neg hr]
      rw [hstep]
      exact ih best (fun y hy hsp => hl y (by simp [hy]) hsp)

/-- The query returns the partition row of maximal created_on that was
inserted before every other row of the same created_on: the row whose
earlier rows in insertion order are strictly older and whose later rows
are no newer. -/
theorem getLatest_first_max (db : Db) (sp : Nat) (l1 : List SampleRow)
    (r : SampleRow) (l2 : List SampleRow)
    (hs : db.samples = l1 ++ r :: l2) (hr : r.spId = sp)
    (h1 : ∀ y ∈ l1, y.spId = sp → y.createdOn < r.createdOn)
    (h2 : ∀ y ∈ l2, y.spId = sp → y.createdOn ≤ r.createdOn) :
    getLatestSampleForAllSensors db sp = some r := by
  unfold getLatestSampleForAllSensors
  rw [hs, List.foldl_append, List.foldl_cons]
  have hacc := latStep_foldl_lt sp r.createdOn l1 none h1 (Or.inl rfl)
  have hstep : latStep sp (l1.foldl (latStep sp) none) r = some r := by
    rcases hacc with hnone | ⟨z, hz, hzc⟩
    · rw [hnone]
      unfold latStep
      rw [if_pos (by simp [hr])]
    · rw [hz]
      unfold latStep
      rw [if_pos (by simp [hr])]
      dsimp only
      rw [if_pos hzc]
  rw [hstep]
  exact latStep_foldl_keep sp l2 r h2

/-- C4 (amended): the latest-sample query returns an entry exactly for
the devices that have at least one sample; any returned sample belongs to
the device and has maximal created_on among its samples; and among rows
of equal maximal created_on the query returns the earliest-inserted one
(the row all of whose predecessors in insertion order are strictly older
and whose successors are no newer), not the most-recently-inserted. -/
theorem latest_sample_per_device_spec (db : Db) (sp : Nat) :
    ((getLatestSampleForAllSensors db sp).isSome
        = db.samples.any (fun r => r.spId == sp)) ∧
    (∀ x, getLatestSampleForAllSensors db sp = some x →
      x ∈ db.samples ∧ x.spId = sp ∧
      ∀ y ∈ db.samples, y.spId = sp → y.createdOn ≤ x.createdOn) ∧
    (∀ l1 r l2, db.samples = l1 ++ r :: l2 → r.spId = sp →
      (∀ y ∈ l1, y.spId = sp → y.createdOn < r.createdOn) →
      (∀ y ∈ l2, y.spId = sp → y.createdOn ≤ r.createdOn) →
      getLatestSampleForAllSensors db sp = some r) := by
  refine ⟨?_, ?_, ?_⟩
  · unfold getLatestSampleForAllSensors
    rw [latStep_foldl_isSome]
    simp
  · intro x h
    rcases latStep_foldl_mem sp db.samples none x h with hc | ⟨hm, hsp⟩
    · cases hc
    · exact ⟨hm, hsp, latStep_foldl_le sp db.samples none x h⟩
  · intro l1 r l2 hs hr h1 h2
    exact getLatest_first_max db sp l1 r l2 hs hr h1 h2

/-- Witness for the C4 theorem at the concrete tie database: the returned
row is a member of the samples of device 1 with maximal created_on, and
the first-maximum characterization computes it. -/
theorem latest_sample_per_device_spec_witness :
    ((⟨1, 1, 10, 20, 30⟩ : SampleRow) ∈ tieDb.samples ∧
      (⟨1, 1, 10, 20, 30⟩ : SampleRow).spId = 1 ∧
      ∀ y ∈ tieDb.samples, y.spId = 1 →
        y.createdOn ≤ (⟨1, 1, 10, 20, 30⟩ : SampleRow).createdOn) ∧
    getLatestSampleForAllSensors tieDb 1 = some ⟨1, 1, 10, 20, 30⟩ := by
  constructor
  · exact (latest_sample_per_device_spec tieDb 1).2.1 ⟨1, 1, 10, 20, 30⟩ (by decide)
  · exact (latest_sample_per_device_spec tieDb 1).2.2
      [] ⟨1, 1, 10, 20, 30⟩ [⟨2, 1, 10, 25, 35⟩] rfl rfl
      (by intro y hy; simp at hy) (by decide)

/-- Counterexample to C4 as stated: in the tie database the sample with
rowid 2 was inserted after the sample with rowid 1, both for device 1
with the same created_on 10 (both maximal), yet the query returns the
earlier-inserted rowid-1 row, not the most-recently-inserted rowid-2
row. -/
theorem latest_sample_tie_not_most_recent :
    getLatestSampleForAllSensors tieDb 1 = some ⟨1, 1, 10, 20, 30⟩ ∧
    (⟨2, 1, 10, 25, 35⟩ : SampleRow) ∈ tieDb.samples ∧
    (⟨2, 1, 10, 25, 35⟩ : SampleRow).spId = 1 ∧
    (∀ y ∈ tieDb.samples, y.createdOn ≤ (⟨2, 1, 10, 25, 35⟩ : SampleRow).createdOn) ∧
    getLatestSampleForAllSensors tieDb 1 ≠ some ⟨2, 1, 10, 25, 35⟩ := by
  decide

end SensorPush
